import Mathlib

/-!
Shallow embedding of the redstone-wire core of MCHPRS
(`src/blocks/redstone/redstone_wire.rs`): the connectivity model
(`get_side`, `can_connect_to`), the power model (`calculate_power`,
`max_wire_power`), the naive propagation entry points
(`on_neighbor_changed`, `on_neighbor_updated`, `get_state_for_placement`),
the turbo neighbor table (`compute_all_neighbors`, `UPDATE_REDSTONE`) and
the `RedstoneWireSide` enumeration, together with theorems checking the
specification's statements about them.

The world container ("Plot") and the per-block-type physical property
queries (solidity, transparency, directional redstone emission) are
external collaborators of this core; they are embedded as opaque data
carried by the `Plot` structure, so every theorem quantifies over all
possible collaborator behaviours.  Machine integers (`u8` power values,
`u32` ids) are embedded as `Nat`: the only arithmetic the core performs on
them is `max` and `saturating_sub`, neither of which can overflow, and
`Nat.sub` is saturating subtraction.
-/

/-- A block position, mirroring `BlockPos { x, y, z }` (coordinates are
machine integers in the source; no arithmetic here can overflow, so they
are embedded as `Int`). -/
structure BlockPos where
  x : Int
  y : Int
  z : Int
deriving DecidableEq, Repr

/-- Mirrors `BlockPos::new(x, y, z)`. -/
def BlockPos.new (x y z : Int) : BlockPos := ⟨x, y, z⟩

/-- Manhattan (taxicab) distance between two positions. -/
def manhattan (p q : BlockPos) : Nat :=
  (q.x - p.x).natAbs + (q.y - p.y).natAbs + (q.z - p.z).natAbs

/-- The six block faces.  Mirrors `BlockFace` from `crate::blocks`. -/
inductive BlockFace where
  | Bottom
  | Top
  | North
  | South
  | West
  | East
deriving DecidableEq, Repr

/-- The four horizontal directions.  Mirrors `BlockDirection`. -/
inductive BlockDirection where
  | North
  | South
  | East
  | West
deriving DecidableEq, Repr

/-- The six facings a block such as an observer can have.
Modelled from the spec: the `BlockFacing` type lives outside `src/`;
only equality tests against `BlockDirection::block_facing` are used. -/
inductive BlockFacing where
  | North
  | South
  | East
  | West
  | Up
  | Down
deriving DecidableEq, Repr

/-- Position offset by one step along a face.  Modelled from the spec and
the source's own `compute_all_neighbors` ordering comment ("west, east,
down, up, north, south" is `(x-1)`, `(x+1)`, `(y-1)`, `(y+1)`, `(z-1)`,
`(z+1)`): `BlockPos::offset` itself lives outside `src/`. -/
def BlockPos.offset (pos : BlockPos) (face : BlockFace) : BlockPos :=
  match face with
  | BlockFace.Bottom => ⟨pos.x, pos.y - 1, pos.z⟩
  | BlockFace.Top => ⟨pos.x, pos.y + 1, pos.z⟩
  | BlockFace.North => ⟨pos.x, pos.y, pos.z - 1⟩
  | BlockFace.South => ⟨pos.x, pos.y, pos.z + 1⟩
  | BlockFace.West => ⟨pos.x - 1, pos.y, pos.z⟩
  | BlockFace.East => ⟨pos.x + 1, pos.y, pos.z⟩

/-- Whether a face is one of the four horizontal ones.  Modelled from the
spec: `BlockFace::is_horizontal` lives outside `src/`. -/
def BlockFace.is_horizontal (face : BlockFace) : Bool :=
  match face with
  | BlockFace.Bottom => false
  | BlockFace.Top => false
  | _ => true

/-- The six faces, as iterated by the `for side in &BlockFace::values()`
loop of `calculate_power`.  Modelled from the spec: `BlockFace::values`
lives outside `src/`; the power model folds a commutative `max` over the
list, so no theorem below depends on the order chosen here. -/
def BlockFace.values : List BlockFace :=
  [BlockFace.Bottom, BlockFace.Top, BlockFace.North, BlockFace.South,
   BlockFace.West, BlockFace.East]

/-- The opposite horizontal direction.  Modelled from the spec:
`BlockDirection::opposite` lives outside `src/`. -/
def BlockDirection.opposite (dir : BlockDirection) : BlockDirection :=
  match dir with
  | BlockDirection.North => BlockDirection.South
  | BlockDirection.South => BlockDirection.North
  | BlockDirection.East => BlockDirection.West
  | BlockDirection.West => BlockDirection.East

/-- The face corresponding to a horizontal direction.  Modelled from the
spec: `BlockDirection::block_face` lives outside `src/`. -/
def BlockDirection.block_face (dir : BlockDirection) : BlockFace :=
  match dir with
  | BlockDirection.North => BlockFace.North
  | BlockDirection.South => BlockFace.South
  | BlockDirection.East => BlockFace.East
  | BlockDirection.West => BlockFace.West

/-- The facing corresponding to a horizontal direction.  Modelled from the
spec ("the observer's facing equals the face corresponding to
`direction`"): `BlockDirection::block_facing` lives outside `src/`. -/
def BlockDirection.block_facing (dir : BlockDirection) : BlockFacing :=
  match dir with
  | BlockDirection.North => BlockFacing.North
  | BlockDirection.South => BlockFacing.South
  | BlockDirection.East => BlockFacing.East
  | BlockDirection.West => BlockFacing.West

/-- Connectivity of a wire toward one horizontal direction.  Mirrors
`RedstoneWireSide`. -/
inductive RedstoneWireSide where
  | Up
  | Side
  | None
deriving DecidableEq, Repr

/-- Mirrors `RedstoneWireSide::is_none`. -/
def RedstoneWireSide.is_none (side : RedstoneWireSide) : Bool :=
  match side with
  | RedstoneWireSide.None => true
  | _ => false

/-- Mirrors `RedstoneWireSide::from_id`.  The source panics on an
out-of-range id (`_ => panic!("Invalid RedstoneWireSide")`); the fatal
outcome is embedded as `Option.none`. -/
def RedstoneWireSide.from_id (id : Nat) : Option RedstoneWireSide :=
  match id with
  | 0 => some RedstoneWireSide.Up
  | 1 => some RedstoneWireSide.Side
  | 2 => some RedstoneWireSide.None
  | _ => none

/-- Mirrors `RedstoneWireSide::get_id`. -/
def RedstoneWireSide.get_id (side : RedstoneWireSide) : Nat :=
  match side with
  | RedstoneWireSide.Up => 0
  | RedstoneWireSide.Side => 1
  | RedstoneWireSide.None => 2

/-- A wire's state: per-direction connectivity and power.  Mirrors
`RedstoneWire { north, south, east, west, power }` (`power: u8`). -/
structure RedstoneWire where
  north : RedstoneWireSide
  south : RedstoneWireSide
  east : RedstoneWireSide
  west : RedstoneWireSide
  power : Nat
deriving DecidableEq, Repr

/-- The block variants the wire engine inspects, with exactly the payloads
it reads (`repeater.facing`, observer facing).  Payload data the wire code
never reads is collapsed; every other block type is `Other`, carrying an
opaque id.  The full `Block` enumeration lives outside `src/` and is an
out-of-scope collaborator per the spec. -/
inductive Block where
  | RedstoneWire (wire : RedstoneWire)
  | RedstoneComparator
  | RedstoneTorch
  | RedstoneBlock
  | RedstoneWallTorch
  | PressurePlate
  | TripwireHook
  | Lever
  | RedstoneRepeater (facing : BlockDirection)
  | Observer (facing : BlockFacing)
  | Other (id : Nat)
deriving DecidableEq, Repr

/-- Whether a block is a redstone wire. -/
def Block.is_wire (block : Block) : Bool :=
  match block with
  | Block.RedstoneWire _ => true
  | _ => false

/-- The world collaborator.  `get_block` is the typed lookup of the spec's
external interface.  Modelled from the spec: the per-block-type physical
property queries (`Block::is_solid`, `Block::is_transparent`) and the
directional emission query (`Block::get_redstone_power_no_dust`, a
neighbor's redstone emission excluding wire-to-wire propagation) live
outside `src/` and are treated as opaque per-block inputs, bundled here so
theorems quantify over every possible collaborator behaviour. -/
structure Plot where
  get_block : BlockPos → Block
  is_solid : Block → Bool
  is_transparent : Block → Bool
  power_no_dust : Block → BlockPos → BlockFace → Nat

/-- Mirrors `Plot::set_block` restricted to what the wire core observes:
the block stored at `pos` is replaced, everything else is unchanged. -/
def Plot.set_block (plot : Plot) (pos : BlockPos) (block : Block) : Plot :=
  { plot with get_block := fun p => if p = pos then block else plot.get_block p }

/-- Mirrors `RedstoneWire::can_connect_to(block, side)`. -/
def RedstoneWire.can_connect_to (block : Block) (side : BlockDirection) : Bool :=
  match block with
  | Block.RedstoneWire _ => true
  | Block.RedstoneComparator => true
  | Block.RedstoneTorch => true
  | Block.RedstoneBlock => true
  | Block.RedstoneWallTorch => true
  | Block.PressurePlate => true
  | Block.TripwireHook => true
  | Block.Lever => true
  | Block.RedstoneRepeater facing => facing = side || facing = side.opposite
  | Block.Observer facing => facing = side.block_facing
  | Block.Other _ => false

/-- Mirrors `RedstoneWire::can_connect_diagonal_to(block)`. -/
def RedstoneWire.can_connect_diagonal_to (block : Block) : Bool :=
  match block with
  | Block.RedstoneWire _ => true
  | _ => false

/-- Mirrors `RedstoneWire::get_side(plot, pos, side)`. -/
def RedstoneWire.get_side (plot : Plot) (pos : BlockPos) (side : BlockDirection) :
    RedstoneWireSide :=
  let neighbor_pos := pos.offset side.block_face
  let neighbor := plot.get_block neighbor_pos
  if RedstoneWire.can_connect_to neighbor side then
    RedstoneWireSide.Side
  else
    let up_pos := pos.offset BlockFace.Top
    let up := plot.get_block up_pos
    if !plot.is_solid up
        && RedstoneWire.can_connect_diagonal_to
          (plot.get_block (neighbor_pos.offset BlockFace.Top)) then
      RedstoneWireSide.Up
    else if !plot.is_solid neighbor
        && RedstoneWire.can_connect_diagonal_to
          (plot.get_block (neighbor_pos.offset BlockFace.Bottom)) then
      RedstoneWireSide.Side
    else
      RedstoneWireSide.None

/-- Mirrors `RedstoneWire::max_wire_power(wire_power, plot, pos)`. -/
def RedstoneWire.max_wire_power (wire_power : Nat) (plot : Plot) (pos : BlockPos) : Nat :=
  match plot.get_block pos with
  | Block.RedstoneWire wire => max wire_power wire.power
  | _ => wire_power

/-- One iteration of the `for side in &BlockFace::values()` loop of
`calculate_power`, acting on the `(block_power, wire_power)` pair.  The
loop body updates the two accumulators independently (neither update reads
the other), so the iteration is the pair of the `block_power` update (the
`neighbor.get_redstone_power_no_dust` max) and the `wire_power` update
(the `max_wire_power` chain: direct neighbor, then for horizontal sides
the guarded up-and-over and down-and-over wires, in source order). -/
def RedstoneWire.calcStep (plot : Plot) (pos : BlockPos) (up_block : Block)
    (acc : Nat × Nat) (side : BlockFace) : Nat × Nat :=
  let neighbor_pos := pos.offset side
  let neighbor := plot.get_block neighbor_pos
  let block_power := max acc.1 (plot.power_no_dust neighbor neighbor_pos side)
  let wp1 := RedstoneWire.max_wire_power acc.2 plot neighbor_pos
  let wire_power :=
    if side.is_horizontal then
      let wp2 :=
        if !plot.is_solid up_block && !plot.is_transparent neighbor then
          RedstoneWire.max_wire_power wp1 plot (neighbor_pos.offset BlockFace.Top)
        else wp1
      if !plot.is_solid neighbor then
        RedstoneWire.max_wire_power wp2 plot (neighbor_pos.offset BlockFace.Bottom)
      else wp2
    else wp1
  (block_power, wire_power)

/-- Mirrors `RedstoneWire::calculate_power(plot, pos)`: fold the loop body
over the six faces starting from `block_power = 0`, `wire_power = 0`, then
return `block_power.max(wire_power.saturating_sub(1))` (`Nat.sub` is
saturating). -/
def RedstoneWire.calculate_power (plot : Plot) (pos : BlockPos) : Nat :=
  let up_pos := pos.offset BlockFace.Top
  let up_block := plot.get_block up_pos
  let acc := BlockFace.values.foldl (RedstoneWire.calcStep plot pos up_block) (0, 0)
  max acc.1 (acc.2 - 1)

/-- Mirrors `RedstoneWire::get_state_for_placement(plot, pos)`. -/
def RedstoneWire.get_state_for_placement (plot : Plot) (pos : BlockPos) : RedstoneWire :=
  { power := RedstoneWire.calculate_power plot pos
    north := RedstoneWire.get_side plot pos BlockDirection.North
    south := RedstoneWire.get_side plot pos BlockDirection.South
    east := RedstoneWire.get_side plot pos BlockDirection.East
    west := RedstoneWire.get_side plot pos BlockDirection.West }

/-- Mirrors `RedstoneWire::on_neighbor_changed(self, plot, pos, side)`:
a pure transform recomputing the connectivity fields the changed face can
affect. -/
def RedstoneWire.on_neighbor_changed (self : RedstoneWire) (plot : Plot) (pos : BlockPos)
    (side : BlockFace) : RedstoneWire :=
  match side with
  | BlockFace.Top => self
  | BlockFace.Bottom =>
      { self with
        north := RedstoneWire.get_side plot pos BlockDirection.North
        south := RedstoneWire.get_side plot pos BlockDirection.South
        east := RedstoneWire.get_side plot pos BlockDirection.East
        west := RedstoneWire.get_side plot pos BlockDirection.West }
  | BlockFace.North =>
      { self with south := RedstoneWire.get_side plot pos BlockDirection.South }
  | BlockFace.South =>
      { self with north := RedstoneWire.get_side plot pos BlockDirection.North }
  | BlockFace.East =>
      { self with west := RedstoneWire.get_side plot pos BlockDirection.West }
  | BlockFace.West =>
      { self with east := RedstoneWire.get_side plot pos BlockDirection.East }

/-- Mirrors `RedstoneWire::on_neighbor_updated(self, plot, pos)`: if the
freshly computed power differs from the stored one, store the updated wire
with `set_block` and call `Block::update_wire_neighbors`; otherwise do
nothing.  The returned `Bool` records whether the write (and with it the
`update_wire_neighbors` cascade, which lives outside `src/`) was
triggered; the cascade itself is not executed, so the returned plot is the
world after the write alone. -/
def RedstoneWire.on_neighbor_updated (self : RedstoneWire) (plot : Plot) (pos : BlockPos) :
    Plot × Bool :=
  let new_power := RedstoneWire.calculate_power plot pos
  if self.power ≠ new_power then
    (plot.set_block pos (Block.RedstoneWire { self with power := new_power }), true)
  else
    (plot, false)

/-- Mirrors `RedstoneWireTurbo::compute_all_neighbors(pos)`: the 6
immediate neighbors in west, east, down, up, north, south order, followed
by the 18 non-duplicate second-degree neighbors, in the source's order. -/
def RedstoneWireTurbo.compute_all_neighbors (pos : BlockPos) : List BlockPos :=
  let x := pos.x
  let y := pos.y
  let z := pos.z
  [BlockPos.new (x - 1) y z,
   BlockPos.new (x + 1) y z,
   BlockPos.new x (y - 1) z,
   BlockPos.new x (y + 1) z,
   BlockPos.new x y (z - 1),
   BlockPos.new x y (z + 1),
   BlockPos.new (x - 2) y z,
   BlockPos.new (x - 1) (y - 1) z,
   BlockPos.new (x - 1) (y + 1) z,
   BlockPos.new (x - 1) y (z - 1),
   BlockPos.new (x - 1) y (z + 1),
   BlockPos.new (x + 2) y z,
   BlockPos.new (x + 1) (y - 1) z,
   BlockPos.new (x + 1) (y + 1) z,
   BlockPos.new (x + 1) y (z - 1),
   BlockPos.new (x + 1) y (z + 1),
   BlockPos.new x (y - 2) z,
   BlockPos.new x (y - 1) (z - 1),
   BlockPos.new x (y - 1) (z + 1),
   BlockPos.new x (y + 2) z,
   BlockPos.new x (y + 1) (z - 1),
   BlockPos.new x (y + 1) (z + 1),
   BlockPos.new x y (z - 2),
   BlockPos.new x y (z + 2)]

/-- Mirrors `RedstoneWireTurbo::UPDATE_REDSTONE`: which of the 24 neighbor
slots may receive updates when the propagating block is wire. -/
def RedstoneWireTurbo.UPDATE_REDSTONE : List Bool :=
  [true, true, false, false, true, true,
   false, true, true, false, false, false,
   true, true, false, false, false, true,
   true, false, true, true, false, false]

/-- Length of the source's `[BlockPos; 24]` neighbor array. -/
theorem RedstoneWireTurbo.compute_all_neighbors_length (pos : BlockPos) :
    (RedstoneWireTurbo.compute_all_neighbors pos).length = 24 := rfl

/-- Length of the source's `[bool; 24]` mask. -/
theorem RedstoneWireTurbo.UPDATE_REDSTONE_length :
    RedstoneWireTurbo.UPDATE_REDSTONE.length = 24 := rfl

/-- The power stored by the wire at a position, `0` when the block there is
not a wire; `max_wire_power` folds exactly this quantity into its
accumulator. -/
def wirePowerAt (plot : Plot) (pos : BlockPos) : Nat :=
  match plot.get_block pos with
  | Block.RedstoneWire wire => wire.power
  | _ => 0

/-- The spec's `block_power`: the maximum over the six face-adjacent
neighbors of that neighbor's directional redstone emission excluding
wire-to-wire propagation. -/
def blockPowerSpec (plot : Plot) (pos : BlockPos) : Nat :=
  (BlockFace.values.map fun side =>
    plot.power_no_dust (plot.get_block (pos.offset side)) (pos.offset side) side).foldl
    max 0

/-- The spec's `wire_power` contribution of one face: the directly
adjacent wire, plus for horizontal neighbors the wire one step up-and-over
(counted only when the block directly above this wire is non-solid and the
neighbor is non-transparent) and the wire one step down-and-over (counted
only when the neighbor is non-solid). -/
def wireContrib (plot : Plot) (pos : BlockPos) (side : BlockFace) : Nat :=
  let neighbor_pos := pos.offset side
  max (wirePowerAt plot neighbor_pos)
    (if side.is_horizontal then
      max
        (if plot.is_solid (plot.get_block (pos.offset BlockFace.Top)) = false ∧
            plot.is_transparent (plot.get_block neighbor_pos) = false then
          wirePowerAt plot (neighbor_pos.offset BlockFace.Top)
        else 0)
        (if plot.is_solid (plot.get_block neighbor_pos) = false then
          wirePowerAt plot (neighbor_pos.offset BlockFace.Bottom)
        else 0)
    else 0)

/-- The spec's `wire_power`: the maximum of the per-face wire
contributions over the six faces. -/
def wirePowerSpec (plot : Plot) (pos : BlockPos) : Nat :=
  (BlockFace.values.map (wireContrib plot pos)).foldl max 0

/-- `max_wire_power` folds the neighbor's stored wire power (or nothing)
into the accumulator. -/
theorem RedstoneWire.max_wire_power_eq (wire_power : Nat) (plot : Plot) (pos : BlockPos) :
    RedstoneWire.max_wire_power wire_power plot pos = max wire_power (wirePowerAt plot pos) := by
  unfold RedstoneWire.max_wire_power wirePowerAt
  cases plot.get_block pos <;> simp

/-- The `block_power` component of the loop body of `calculate_power`. -/
def blockPowerStep (plot : Plot) (pos : BlockPos) (bp : Nat) (side : BlockFace) : Nat :=
  max bp (plot.power_no_dust (plot.get_block (pos.offset side)) (pos.offset side) side)

/-- The `wire_power` component of the loop body of `calculate_power`. -/
def wirePowerStep (plot : Plot) (pos : BlockPos) (up_block : Block) (wp : Nat)
    (side : BlockFace) : Nat :=
  let neighbor_pos := pos.offset side
  let neighbor := plot.get_block neighbor_pos
  let wp1 := RedstoneWire.max_wire_power wp plot neighbor_pos
  if side.is_horizontal then
    let wp2 :=
      if !plot.is_solid up_block && !plot.is_transparent neighbor then
        RedstoneWire.max_wire_power wp1 plot (neighbor_pos.offset BlockFace.Top)
      else wp1
    if !plot.is_solid neighbor then
      RedstoneWire.max_wire_power wp2 plot (neighbor_pos.offset BlockFace.Bottom)
    else wp2
  else wp1

/-- The loop body is the pair of its two independent components. -/
theorem RedstoneWire.calcStep_eq (plot : Plot) (pos : BlockPos) (up_block : Block)
    (acc : Nat × Nat) (side : BlockFace) :
    RedstoneWire.calcStep plot pos up_block acc side
      = (blockPowerStep plot pos acc.1 side, wirePowerStep plot pos up_block acc.2 side) := rfl

/-- A fold whose step updates the two components of a pair independently
is the pair of the two component folds. -/
theorem foldl_pair_split {α : Type} (f g : Nat → α → Nat) (l : List α) (a b : Nat) :
    l.foldl (fun acc x => (f acc.1 x, g acc.2 x)) (a, b) = (l.foldl f a, l.foldl g b) := by
  induction l generalizing a b with
  | nil => rfl
  | cons x xs ih => simpa using ih (f a x) (g b x)

/-- Fold congruence: pointwise equal step functions fold equally. -/
theorem foldl_congr_fn {α : Type} (f g : Nat → α → Nat) (l : List α) (a : Nat)
    (h : ∀ acc x, x ∈ l → f acc x = g acc x) : l.foldl f a = l.foldl g a := by
  induction l generalizing a with
  | nil => rfl
  | cons x xs ih =>
      simp only [List.foldl_cons]
      rw [h a x (by simp)]
      exact ih _ fun acc y hy => h acc y (by simp [hy])

set_option maxHeartbeats 1000000 in
/-- The `wire_power` loop component grows the accumulator by exactly the
spec's per-face wire contribution. -/
theorem wirePowerStep_eq (plot : Plot) (pos : BlockPos) (wp : Nat) (side : BlockFace) :
    wirePowerStep plot pos (plot.get_block (pos.offset BlockFace.Top)) wp side
      = max wp (wireContrib plot pos side) := by
  cases side with
  | Bottom =>
      simp [wirePowerStep, wireContrib, BlockFace.is_horizontal, RedstoneWire.max_wire_power_eq]
  | Top =>
      simp [wirePowerStep, wireContrib, BlockFace.is_horizontal, RedstoneWire.max_wire_power_eq]
  | North =>
      cases hs : plot.is_solid (plot.get_block (pos.offset BlockFace.Top)) <;>
        cases ht : plot.is_transparent (plot.get_block (pos.offset BlockFace.North)) <;>
        cases hn : plot.is_solid (plot.get_block (pos.offset BlockFace.North)) <;>
        simp [wirePowerStep, wireContrib, BlockFace.is_horizontal,
          RedstoneWire.max_wire_power_eq, hs, ht, hn] <;> omega
  | South =>
      cases hs : plot.is_solid (plot.get_block (pos.offset BlockFace.Top)) <;>
        cases ht : plot.is_transparent (plot.get_block (pos.offset BlockFace.South)) <;>
        cases hn : plot.is_solid (plot.get_block (pos.offset BlockFace.South)) <;>
        simp [wirePowerStep, wireContrib, BlockFace.is_horizontal,
          RedstoneWire.max_wire_power_eq, hs, ht, hn] <;> omega
  | West =>
      cases hs : plot.is_solid (plot.get_block (pos.offset BlockFace.Top)) <;>
        cases ht : plot.is_transparent (plot.get_block (pos.offset BlockFace.West)) <;>
        cases hn : plot.is_solid (plot.get_block (pos.offset BlockFace.West)) <;>
        simp [wirePowerStep, wireContrib, BlockFace.is_horizontal,
          RedstoneWire.max_wire_power_eq, hs, ht, hn] <;> omega
  | East =>
      cases hs : plot.is_solid (plot.get_block (pos.offset BlockFace.Top)) <;>
        cases ht : plot.is_transparent (plot.get_block (pos.offset BlockFace.East)) <;>
        cases hn : plot.is_solid (plot.get_block (pos.offset BlockFace.East)) <;>
        simp [wirePowerStep, wireContrib, BlockFace.is_horizontal,
          RedstoneWire.max_wire_power_eq, hs, ht, hn] <;> omega

/-- `calculate_power` equals the spec's separated formulation:
`max(block_power, wire_power.saturating_sub(1))` with `block_power` and
`wire_power` the two maxima of the spec's power model. -/
theorem RedstoneWire.calculate_power_spec (plot : Plot) (pos : BlockPos) :
    RedstoneWire.calculate_power plot pos
      = max (blockPowerSpec plot pos) (wirePowerSpec plot pos - 1) := by
  have hsplit :
      BlockFace.values.foldl
          (RedstoneWire.calcStep plot pos (plot.get_block (pos.offset BlockFace.Top))) (0, 0)
        = (BlockFace.values.foldl (blockPowerStep plot pos) 0,
           BlockFace.values.foldl
             (wirePowerStep plot pos (plot.get_block (pos.offset BlockFace.Top))) 0) := by
    rw [show RedstoneWire.calcStep plot pos (plot.get_block (pos.offset BlockFace.Top))
          = fun (acc : Nat × Nat) side =>
              (blockPowerStep plot pos acc.1 side,
               wirePowerStep plot pos (plot.get_block (pos.offset BlockFace.Top)) acc.2 side)
        from rfl]
    exact foldl_pair_split _ _ _ 0 0
  show max
      (BlockFace.values.foldl
        (RedstoneWire.calcStep plot pos (plot.get_block (pos.offset BlockFace.Top))) (0, 0)).1
      ((BlockFace.values.foldl
        (RedstoneWire.calcStep plot pos (plot.get_block (pos.offset BlockFace.Top))) (0, 0)).2 - 1)
    = max (blockPowerSpec plot pos) (wirePowerSpec plot pos - 1)
  rw [hsplit]
  have hblock : BlockFace.values.foldl (blockPowerStep plot pos) 0 = blockPowerSpec plot pos := by
    unfold blockPowerSpec
    rw [List.foldl_map]
    rfl
  have hwire :
      BlockFace.values.foldl
          (wirePowerStep plot pos (plot.get_block (pos.offset BlockFace.Top))) 0
        = wirePowerSpec plot pos := by
    unfold wirePowerSpec
    rw [List.foldl_map]
    exact foldl_congr_fn _ _ _ 0 fun acc x _ => wirePowerStep_eq plot pos acc x
  rw [hblock, hwire]

/-- `set_block` does not touch the solidity table. -/
@[simp] theorem Plot.set_block_is_solid (plot : Plot) (pos : BlockPos) (b : Block) :
    (plot.set_block pos b).is_solid = plot.is_solid := rfl

/-- `set_block` does not touch the transparency table. -/
@[simp] theorem Plot.set_block_is_transparent (plot : Plot) (pos : BlockPos) (b : Block) :
    (plot.set_block pos b).is_transparent = plot.is_transparent := rfl

/-- `set_block` does not touch the emission table. -/
@[simp] theorem Plot.set_block_power_no_dust (plot : Plot) (pos : BlockPos) (b : Block) :
    (plot.set_block pos b).power_no_dust = plot.power_no_dust := rfl

/-- Reading any other position after `set_block` sees the old world. -/
theorem Plot.get_set_ne (plot : Plot) (pos q : BlockPos) (b : Block) (h : q ≠ pos) :
    (plot.set_block pos b).get_block q = plot.get_block q := by
  simp [Plot.set_block, h]

/-- A one-step offset never returns to the same position. -/
theorem BlockPos.offset_ne (pos : BlockPos) (face : BlockFace) : pos.offset face ≠ pos := by
  obtain ⟨x, y, z⟩ := pos
  cases face <;> intro h <;> simp only [BlockPos.offset, BlockPos.mk.injEq] at h <;> omega

/-- A horizontal step followed by an upward step never returns home. -/
theorem BlockPos.offset_horiz_top_ne (pos : BlockPos) (face : BlockFace)
    (hf : face.is_horizontal = true) : (pos.offset face).offset BlockFace.Top ≠ pos := by
  obtain ⟨x, y, z⟩ := pos
  cases face <;> simp [BlockFace.is_horizontal] at hf <;> intro h <;>
    simp only [BlockPos.offset, BlockPos.mk.injEq] at h <;> omega

/-- A horizontal step followed by a downward step never returns home. -/
theorem BlockPos.offset_horiz_bottom_ne (pos : BlockPos) (face : BlockFace)
    (hf : face.is_horizontal = true) : (pos.offset face).offset BlockFace.Bottom ≠ pos := by
  obtain ⟨x, y, z⟩ := pos
  cases face <;> simp [BlockFace.is_horizontal] at hf <;> intro h <;>
    simp only [BlockPos.offset, BlockPos.mk.injEq] at h <;> omega

/-- `wirePowerAt` at any other position is unchanged by `set_block`. -/
theorem wirePowerAt_set (plot : Plot) (pos q : BlockPos) (b : Block) (h : q ≠ pos) :
    wirePowerAt (plot.set_block pos b) q = wirePowerAt plot q := by
  unfold wirePowerAt
  rw [Plot.get_set_ne plot pos q b h]

/-- `block_power` at a position does not read the block stored there. -/
theorem blockPowerSpec_set_self (plot : Plot) (pos : BlockPos) (b : Block) :
    blockPowerSpec (plot.set_block pos b) pos = blockPowerSpec plot pos := by
  unfold blockPowerSpec
  congr 1
  refine List.map_congr_left fun side _ => ?_
  rw [Plot.set_block_power_no_dust,
    Plot.get_set_ne plot pos (pos.offset side) b (BlockPos.offset_ne pos side)]

/-- The per-face wire contribution at a position does not read the block
stored there. -/
theorem wireContrib_set_self (plot : Plot) (pos : BlockPos) (b : Block) (side : BlockFace) :
    wireContrib (plot.set_block pos b) pos side = wireContrib plot pos side := by
  cases side with
  | Bottom =>
      simp only [wireContrib, BlockFace.is_horizontal, Bool.false_eq_true, if_false,
        wirePowerAt_set plot pos (pos.offset BlockFace.Bottom) b (BlockPos.offset_ne pos BlockFace.Bottom)]
  | Top =>
      simp only [wireContrib, BlockFace.is_horizontal, Bool.false_eq_true, if_false,
        wirePowerAt_set plot pos (pos.offset BlockFace.Top) b (BlockPos.offset_ne pos BlockFace.Top)]
  | North =>
      simp only [wireContrib, BlockFace.is_horizontal, if_true,
        Plot.set_block_is_solid, Plot.set_block_is_transparent,
        Plot.get_set_ne plot pos (pos.offset BlockFace.North) b (BlockPos.offset_ne pos BlockFace.North),
        Plot.get_set_ne plot pos (pos.offset BlockFace.Top) b (BlockPos.offset_ne pos BlockFace.Top),
        wirePowerAt_set plot pos (pos.offset BlockFace.North) b (BlockPos.offset_ne pos BlockFace.North),
        wirePowerAt_set plot pos ((pos.offset BlockFace.North).offset BlockFace.Top) b
          (BlockPos.offset_horiz_top_ne pos BlockFace.North rfl),
        wirePowerAt_set plot pos ((pos.offset BlockFace.North).offset BlockFace.Bottom) b
          (BlockPos.offset_horiz_bottom_ne pos BlockFace.North rfl)]
  | South =>
      simp only [wireContrib, BlockFace.is_horizontal, if_true,
        Plot.set_block_is_solid, Plot.set_block_is_transparent,
        Plot.get_set_ne plot pos (pos.offset BlockFace.South) b (BlockPos.offset_ne pos BlockFace.South),
        Plot.get_set_ne plot pos (pos.offset BlockFace.Top) b (BlockPos.offset_ne pos BlockFace.Top),
        wirePowerAt_set plot pos (pos.offset BlockFace.South) b (BlockPos.offset_ne pos BlockFace.South),
        wirePowerAt_set plot pos ((pos.offset BlockFace.South).offset BlockFace.Top) b
          (BlockPos.offset_horiz_top_ne pos BlockFace.South rfl),
        wirePowerAt_set plot pos ((pos.offset BlockFace.South).offset BlockFace.Bottom) b
          (BlockPos.offset_horiz_bottom_ne pos BlockFace.South rfl)]
  | West =>
      simp only [wireContrib, BlockFace.is_horizontal, if_true,
        Plot.set_block_is_solid, Plot.set_block_is_transparent,
        Plot.get_set_ne plot pos (pos.offset BlockFace.West) b (BlockPos.offset_ne pos BlockFace.West),
        Plot.get_set_ne plot pos (pos.offset BlockFace.Top) b (BlockPos.offset_ne pos BlockFace.Top),
        wirePowerAt_set plot pos (pos.offset BlockFace.West) b (BlockPos.offset_ne pos BlockFace.West),
        wirePowerAt_set plot pos ((pos.offset BlockFace.West).offset BlockFace.Top) b
          (BlockPos.offset_horiz_top_ne pos BlockFace.West rfl),
        wirePowerAt_set plot pos ((pos.offset BlockFace.West).offset BlockFace.Bottom) b
          (BlockPos.offset_horiz_bottom_ne pos BlockFace.West rfl)]
  | East =>
      simp only [wireContrib, BlockFace.is_horizontal, if_true,
        Plot.set_block_is_solid, Plot.set_block_is_transparent,
        Plot.get_set_ne plot pos (pos.offset BlockFace.East) b (BlockPos.offset_ne pos BlockFace.East),
        Plot.get_set_ne plot pos (pos.offset BlockFace.Top) b (BlockPos.offset_ne pos BlockFace.Top),
        wirePowerAt_set plot pos (pos.offset BlockFace.East) b (BlockPos.offset_ne pos BlockFace.East),
        wirePowerAt_set plot pos ((pos.offset BlockFace.East).offset BlockFace.Top) b
          (BlockPos.offset_horiz_top_ne pos BlockFace.East rfl),
        wirePowerAt_set plot pos ((pos.offset BlockFace.East).offset BlockFace.Bottom) b
          (BlockPos.offset_horiz_bottom_ne pos BlockFace.East rfl)]

/-- `wire_power` at a position does not read the block stored there. -/
theorem wirePowerSpec_set_self (plot : Plot) (pos : BlockPos) (b : Block) :
    wirePowerSpec (plot.set_block pos b) pos = wirePowerSpec plot pos := by
  unfold wirePowerSpec
  congr 1
  exact List.map_congr_left fun side _ => wireContrib_set_self plot pos b side

/-- Frame property of the power model: `calculate_power` at `pos` never
reads the block at `pos` itself, so overwriting `pos` does not change it. -/
theorem RedstoneWire.calculate_power_set_self (plot : Plot) (pos : BlockPos) (b : Block) :
    RedstoneWire.calculate_power (plot.set_block pos b) pos
      = RedstoneWire.calculate_power plot pos := by
  rw [RedstoneWire.calculate_power_spec, RedstoneWire.calculate_power_spec,
    blockPowerSpec_set_self, wirePowerSpec_set_self]

/-- Folding `max` over a list of bounded values stays bounded. -/
theorem foldl_max_le (l : List Nat) (a n : Nat) (ha : a ≤ n) (h : ∀ x ∈ l, x ≤ n) :
    l.foldl max a ≤ n := by
  induction l generalizing a with
  | nil => simpa using ha
  | cons x xs ih =>
      simp only [List.foldl_cons]
      exact ih _ (by have := h x (by simp); omega) fun y hy => h y (by simp [hy])

/-- The stored wire power a position contributes is bounded when every
stored wire power in the world is. -/
theorem wirePowerAt_le (plot : Plot) (pos q : BlockPos) (hq : manhattan pos q ≤ 2)
    (h : ∀ p w, manhattan pos p ≤ 2 → plot.get_block p = Block.RedstoneWire w →
      w.power ≤ 15) :
    wirePowerAt plot q ≤ 15 := by
  unfold wirePowerAt
  cases hb : plot.get_block q <;> simp
  exact h q _ hq hb

/-- A one-step offset lies within Manhattan distance 2. -/
theorem manhattan_offset_le (pos : BlockPos) (face : BlockFace) :
    manhattan pos (pos.offset face) ≤ 2 := by
  obtain ⟨x, y, z⟩ := pos
  cases face <;> simp [manhattan, BlockPos.offset]

/-- A two-step offset lies within Manhattan distance 2. -/
theorem manhattan_offset_offset_le (pos : BlockPos) (f g : BlockFace) :
    manhattan pos ((pos.offset f).offset g) ≤ 2 := by
  obtain ⟨x, y, z⟩ := pos
  cases f <;> cases g <;> simp [manhattan, BlockPos.offset] <;> omega

/-- Bound on the spec's `block_power` when each neighbor's emission toward
this position is bounded. -/
theorem blockPowerSpec_le (plot : Plot) (pos : BlockPos)
    (hemit : ∀ side : BlockFace,
      plot.power_no_dust (plot.get_block (pos.offset side)) (pos.offset side) side ≤ 15) :
    blockPowerSpec plot pos ≤ 15 := by
  unfold blockPowerSpec
  refine foldl_max_le _ _ _ (by omega) fun v hv => ?_
  simp only [List.mem_map] at hv
  obtain ⟨side, _, rfl⟩ := hv
  exact hemit side

/-- Bound on the spec's `wire_power` when every stored wire power within
Manhattan distance 2 is bounded. -/
theorem wirePowerSpec_le (plot : Plot) (pos : BlockPos)
    (hwire : ∀ p w, manhattan pos p ≤ 2 → plot.get_block p = Block.RedstoneWire w →
      w.power ≤ 15) :
    wirePowerSpec plot pos ≤ 15 := by
  unfold wirePowerSpec
  refine foldl_max_le _ _ _ (by omega) fun v hv => ?_
  simp only [List.mem_map] at hv
  obtain ⟨side, _, rfl⟩ := hv
  have h1 := wirePowerAt_le plot pos (pos.offset side) (manhattan_offset_le pos side) hwire
  have h2 := wirePowerAt_le plot pos ((pos.offset side).offset BlockFace.Top)
    (manhattan_offset_offset_le pos side BlockFace.Top) hwire
  have h3 := wirePowerAt_le plot pos ((pos.offset side).offset BlockFace.Bottom)
    (manhattan_offset_offset_le pos side BlockFace.Bottom) hwire
  simp only [wireContrib]
  split_ifs <;> omega

/-- The power model is bounded by 15 whenever every stored wire power
within Manhattan distance 2 and every neighbor emission toward this
position is. -/
theorem RedstoneWire.calculate_power_le (plot : Plot) (pos : BlockPos)
    (hwire : ∀ p w, manhattan pos p ≤ 2 → plot.get_block p = Block.RedstoneWire w →
      w.power ≤ 15)
    (hemit : ∀ side : BlockFace,
      plot.power_no_dust (plot.get_block (pos.offset side)) (pos.offset side) side ≤ 15) :
    RedstoneWire.calculate_power plot pos ≤ 15 := by
  rw [RedstoneWire.calculate_power_spec]
  have hb := blockPowerSpec_le plot pos hemit
  have hw := wirePowerSpec_le plot pos hwire
  omega

/-- Reading the written position after `set_block` sees the new block. -/
theorem Plot.get_set_self (plot : Plot) (pos : BlockPos) (b : Block) :
    (plot.set_block pos b).get_block pos = b := by
  simp [Plot.set_block]

/-- C1: for every position, `calculate_power` returns exactly
`max(block_power, wire_power.saturating_sub(1))`, where `block_power` is
the maximum over the six face-adjacent neighbors of that neighbor's
directional redstone emission excluding wire-to-wire propagation
(`blockPowerSpec`) and `wire_power` is the maximum power among every
directly adjacent wire plus, for horizontal neighbors, the wire one step
up-and-over (when the block directly above the wire is non-solid and the
neighbor is non-transparent) and the wire one step down-and-over (when the
neighbor is non-solid) (`wirePowerSpec`); `Nat` subtraction is saturating,
so the result never goes below 0, and direct emitters (`block_power`) are
not attenuated. -/
theorem claim_C1_calculate_power_formula (plot : Plot) (pos : BlockPos) :
    RedstoneWire.calculate_power plot pos
      = max (blockPowerSpec plot pos) (wirePowerSpec plot pos - 1) :=
  RedstoneWire.calculate_power_spec plot pos

/-- C2: for a position whose neighborhood is in range — every stored wire
power within Manhattan distance 2 (the wires the power model can read) and
every neighbor's directional emission toward this position lies in
`0..=15` — `calculate_power` lies in `0..=15`, and hence so do the power
fields stored by `get_state_for_placement` and persisted by
`on_neighbor_updated`: no out-of-range power is produced or persisted. -/
theorem claim_C2_power_bounded (plot : Plot) (pos : BlockPos)
    (hwire : ∀ p w, manhattan pos p ≤ 2 → plot.get_block p = Block.RedstoneWire w →
      w.power ≤ 15)
    (hemit : ∀ side : BlockFace,
      plot.power_no_dust (plot.get_block (pos.offset side)) (pos.offset side) side ≤ 15) :
    RedstoneWire.calculate_power plot pos ≤ 15
    ∧ (RedstoneWire.get_state_for_placement plot pos).power ≤ 15
    ∧ ∀ self w,
        (RedstoneWire.on_neighbor_updated self plot pos).1.get_block pos
            = Block.RedstoneWire w →
        w.power ≤ 15 := by
  refine ⟨RedstoneWire.calculate_power_le plot pos hwire hemit,
    RedstoneWire.calculate_power_le plot pos hwire hemit, ?_⟩
  intro self w hw
  by_cases h : self.power ≠ RedstoneWire.calculate_power plot pos
  · simp only [RedstoneWire.on_neighbor_updated, if_pos h] at hw
    rw [Plot.get_set_self] at hw
    cases hw
    exact RedstoneWire.calculate_power_le plot pos hwire hemit
  · simp only [RedstoneWire.on_neighbor_updated, if_neg h] at hw
    exact hwire pos w (by simp [manhattan]) hw

/-- A world holding no wire and emitting nothing, for concrete checks. -/
def plotOther : Plot :=
  { get_block := fun _ => Block.Other 0
    is_solid := fun _ => false
    is_transparent := fun _ => false
    power_no_dust := fun _ _ _ => 0 }

/-- Witness for C2 at the origin of a concrete world. -/
theorem claim_C2_witness : RedstoneWire.calculate_power plotOther ⟨0, 0, 0⟩ ≤ 15 :=
  (claim_C2_power_bounded plotOther ⟨0, 0, 0⟩
    (fun p w _ h => by simp [plotOther] at h)
    (fun side => by simp [plotOther])).1

/-- C4: `on_neighbor_updated` persists a new state and triggers the
neighbor cascade exactly when the freshly computed power differs from the
stored power; when equal it performs no world write; and applying it a
second time, with no intervening world change, to the wire now stored at
the position performs no second write and no second cascade. -/
theorem claim_C4_update_iff_and_idempotent (self : RedstoneWire) (plot : Plot) (pos : BlockPos)
    (h : plot.get_block pos = Block.RedstoneWire self) :
    ((RedstoneWire.on_neighbor_updated self plot pos).2 = true
        ↔ self.power ≠ RedstoneWire.calculate_power plot pos)
    ∧ (self.power = RedstoneWire.calculate_power plot pos →
        RedstoneWire.on_neighbor_updated self plot pos = (plot, false))
    ∧ ∀ w,
        (RedstoneWire.on_neighbor_updated self plot pos).1.get_block pos
            = Block.RedstoneWire w →
        RedstoneWire.on_neighbor_updated w (RedstoneWire.on_neighbor_updated self plot pos).1 pos
          = ((RedstoneWire.on_neighbor_updated self plot pos).1, false) := by
  by_cases hp : self.power ≠ RedstoneWire.calculate_power plot pos
  · refine ⟨by simp [RedstoneWire.on_neighbor_updated, if_pos hp, hp], fun he => absurd he hp, ?_⟩
    intro w hw
    simp only [RedstoneWire.on_neighbor_updated, if_pos hp] at hw
    rw [Plot.get_set_self] at hw
    cases hw
    simp only [RedstoneWire.on_neighbor_updated, if_pos hp]
    have hstable :
        ¬(({ self with power := RedstoneWire.calculate_power plot pos } : RedstoneWire).power
          ≠ RedstoneWire.calculate_power
              (plot.set_block pos
                (Block.RedstoneWire
                  { self with power := RedstoneWire.calculate_power plot pos })) pos) := by
      simp only [ne_eq, not_not]
      rw [RedstoneWire.calculate_power_set_self]
    rw [if_neg hstable]
  · refine ⟨by simp [RedstoneWire.on_neighbor_updated, if_neg hp, hp], fun _ => by
      simp [RedstoneWire.on_neighbor_updated, if_neg hp], ?_⟩
    intro w hw
    simp only [RedstoneWire.on_neighbor_updated, if_neg hp] at hw ⊢
    rw [h] at hw
    cases hw
    rw [if_neg hp]

/-- A quiescent wire with no connections and zero power. -/
def wireZero : RedstoneWire :=
  ⟨RedstoneWireSide.None, RedstoneWireSide.None, RedstoneWireSide.None,
   RedstoneWireSide.None, 0⟩

/-- A world holding exactly the quiescent wire at the origin. -/
def plotWireZero : Plot :=
  { get_block := fun p => if p = ⟨0, 0, 0⟩ then Block.RedstoneWire wireZero else Block.Other 0
    is_solid := fun _ => false
    is_transparent := fun _ => false
    power_no_dust := fun _ _ _ => 0 }

/-- Witness for C4: the settled wire at the origin of a concrete world is
not rewritten and triggers no cascade. -/
theorem claim_C4_witness :
    RedstoneWire.on_neighbor_updated wireZero plotWireZero ⟨0, 0, 0⟩ = (plotWireZero, false) :=
  (claim_C4_update_iff_and_idempotent wireZero plotWireZero ⟨0, 0, 0⟩ (by decide)).2.1 (by decide)

/-- C5: `on_neighbor_changed` recomputes connectivity exactly by face: a
change from below recomputes all four horizontal sides, a change from a
horizontal face recomputes only the opposite side and leaves the other
three unchanged, and a change from above changes nothing. -/
theorem claim_C5_on_neighbor_changed_cases (self : RedstoneWire) (plot : Plot)
    (pos : BlockPos) :
    RedstoneWire.on_neighbor_changed self plot pos BlockFace.Top = self
    ∧ ((RedstoneWire.on_neighbor_changed self plot pos BlockFace.Bottom).north
          = RedstoneWire.get_side plot pos BlockDirection.North
        ∧ (RedstoneWire.on_neighbor_changed self plot pos BlockFace.Bottom).south
          = RedstoneWire.get_side plot pos BlockDirection.South
        ∧ (RedstoneWire.on_neighbor_changed self plot pos BlockFace.Bottom).east
          = RedstoneWire.get_side plot pos BlockDirection.East
        ∧ (RedstoneWire.on_neighbor_changed self plot pos BlockFace.Bottom).west
          = RedstoneWire.get_side plot pos BlockDirection.West)
    ∧ ((RedstoneWire.on_neighbor_changed self plot pos BlockFace.North).south
          = RedstoneWire.get_side plot pos BlockDirection.South
        ∧ (RedstoneWire.on_neighbor_changed self plot pos BlockFace.North).north = self.north
        ∧ (RedstoneWire.on_neighbor_changed self plot pos BlockFace.North).east = self.east
        ∧ (RedstoneWire.on_neighbor_changed self plot pos BlockFace.North).west = self.west)
    ∧ ((RedstoneWire.on_neighbor_changed self plot pos BlockFace.South).north
          = RedstoneWire.get_side plot pos BlockDirection.North
        ∧ (RedstoneWire.on_neighbor_changed self plot pos BlockFace.South).south = self.south
        ∧ (RedstoneWire.on_neighbor_changed self plot pos BlockFace.South).east = self.east
        ∧ (RedstoneWire.on_neighbor_changed self plot pos BlockFace.South).west = self.west)
    ∧ ((RedstoneWire.on_neighbor_changed self plot pos BlockFace.East).west
          = RedstoneWire.get_side plot pos BlockDirection.West
        ∧ (RedstoneWire.on_neighbor_changed self plot pos BlockFace.East).north = self.north
        ∧ (RedstoneWire.on_neighbor_changed self plot pos BlockFace.East).south = self.south
        ∧ (RedstoneWire.on_neighbor_changed self plot pos BlockFace.East).east = self.east)
    ∧ ((RedstoneWire.on_neighbor_changed self plot pos BlockFace.West).east
          = RedstoneWire.get_side plot pos BlockDirection.East
        ∧ (RedstoneWire.on_neighbor_changed self plot pos BlockFace.West).north = self.north
        ∧ (RedstoneWire.on_neighbor_changed self plot pos BlockFace.West).south = self.south
        ∧ (RedstoneWire.on_neighbor_changed self plot pos BlockFace.West).west = self.west) :=
  ⟨rfl, ⟨rfl, rfl, rfl, rfl⟩, ⟨rfl, rfl, rfl, rfl⟩, ⟨rfl, rfl, rfl, rfl⟩,
   ⟨rfl, rfl, rfl, rfl⟩, ⟨rfl, rfl, rfl, rfl⟩⟩

/-- C9: `RedstoneWireSide::from_id` decodes `0`, `1`, `2` to `Up`, `Side`,
`None`, and every other id fails fatally (the source panics; the panic is
embedded as `Option.none`), never coercing an out-of-range value to a
wire side. -/
theorem claim_C9_from_id (id : Nat) :
    RedstoneWireSide.from_id 0 = some RedstoneWireSide.Up
    ∧ RedstoneWireSide.from_id 1 = some RedstoneWireSide.Side
    ∧ RedstoneWireSide.from_id 2 = some RedstoneWireSide.None
    ∧ (2 < id → RedstoneWireSide.from_id id = Option.none) := by
  refine ⟨rfl, rfl, rfl, fun h => ?_⟩
  match id, h with
  | n + 3, _ => rfl

/-- Witness for C9 at the concrete out-of-range id 7. -/
theorem claim_C9_witness : 2 < 7 ∧ RedstoneWireSide.from_id 7 = Option.none :=
  ⟨by decide, (claim_C9_from_id 7).2.2.2 (by decide)⟩

/-- C10: connectivity recomputation never modifies stored power: for every
face, the state returned by `on_neighbor_changed` has the same `power`
field as the input state. -/
theorem claim_C10_on_neighbor_changed_power (self : RedstoneWire) (plot : Plot)
    (pos : BlockPos) (face : BlockFace) :
    (RedstoneWire.on_neighbor_changed self plot pos face).power = self.power := by
  cases face <;> rfl

/-- `can_connect_diagonal_to` accepts exactly the wire blocks. -/
theorem can_connect_diagonal_iff_wire (block : Block) :
    RedstoneWire.can_connect_diagonal_to block = block.is_wire := by
  cases block <;> rfl

/-- The claim's description of "can connect to": unconditionally for wire,
comparator, standing or wall torch, solid redstone-emitting block,
pressure plate, tripwire hook and lever; for a repeater only when its
facing is the direction or its opposite; for an observer only when its
facing is the facing corresponding to the direction; never otherwise.
Stated from the spec's words, to be compared with the source's
`can_connect_to`. -/
def canConnectClaim : Block → BlockDirection → Prop
  | Block.RedstoneWire _, _ => True
  | Block.RedstoneComparator, _ => True
  | Block.RedstoneTorch, _ => True
  | Block.RedstoneBlock, _ => True
  | Block.RedstoneWallTorch, _ => True
  | Block.PressurePlate, _ => True
  | Block.TripwireHook, _ => True
  | Block.Lever, _ => True
  | Block.RedstoneRepeater facing, dir => facing = dir ∨ facing = dir.opposite
  | Block.Observer facing, dir => facing = dir.block_facing
  | Block.Other _, _ => False

/-- C6: `get_side` returns `Side` exactly when the neighbor can connect
from the direction (with the claim's per-block-type characterization of
"can connect"); otherwise `Up` when the block directly above the current
wire is non-solid and the block one step up from the neighbor is a wire;
otherwise `Side` when the neighbor is non-solid and the block one step
down from the neighbor is a wire; otherwise `None`. -/
theorem claim_C6_get_side_chain (plot : Plot) (pos : BlockPos) (dir : BlockDirection) :
    (∀ b : Block, RedstoneWire.can_connect_to b dir = true ↔ canConnectClaim b dir)
    ∧ RedstoneWire.get_side plot pos dir =
        (if RedstoneWire.can_connect_to (plot.get_block (pos.offset dir.block_face)) dir then
          RedstoneWireSide.Side
        else if plot.is_solid (plot.get_block (pos.offset BlockFace.Top)) = false
            ∧ (plot.get_block ((pos.offset dir.block_face).offset BlockFace.Top)).is_wire
              = true then
          RedstoneWireSide.Up
        else if plot.is_solid (plot.get_block (pos.offset dir.block_face)) = false
            ∧ (plot.get_block ((pos.offset dir.block_face).offset BlockFace.Bottom)).is_wire
              = true then
          RedstoneWireSide.Side
        else RedstoneWireSide.None) := by
  constructor
  · intro b
    cases b <;> simp [RedstoneWire.can_connect_to, canConnectClaim]
  · simp only [RedstoneWire.get_side, can_connect_diagonal_iff_wire]
    cases hc : RedstoneWire.can_connect_to (plot.get_block (pos.offset dir.block_face)) dir <;>
      cases hs : plot.is_solid (plot.get_block (pos.offset BlockFace.Top)) <;>
      cases hu : (plot.get_block ((pos.offset dir.block_face).offset BlockFace.Top)).is_wire <;>
      cases hn : plot.is_solid (plot.get_block (pos.offset dir.block_face)) <;>
      cases hd :
        (plot.get_block ((pos.offset dir.block_face).offset BlockFace.Bottom)).is_wire <;>
      simp [hc, hs, hu, hn, hd]

/-- C7: `compute_all_neighbors` returns exactly 24 positions: the first 6
are the input offset by west, east, down, up, north, south in that order;
the remaining 18 lie at Manhattan distance 2; and the 24 are pairwise
distinct and all distinct from the input (the 12 duplicate second-degree
positions are excluded). -/
theorem claim_C7_compute_all_neighbors (p : BlockPos) :
    (RedstoneWireTurbo.compute_all_neighbors p).length = 24
    ∧ (RedstoneWireTurbo.compute_all_neighbors p).take 6 =
        [p.offset BlockFace.West, p.offset BlockFace.East, p.offset BlockFace.Bottom,
         p.offset BlockFace.Top, p.offset BlockFace.North, p.offset BlockFace.South]
    ∧ (∀ q ∈ (RedstoneWireTurbo.compute_all_neighbors p).drop 6, manhattan p q = 2)
    ∧ (RedstoneWireTurbo.compute_all_neighbors p).Nodup
    ∧ p ∉ RedstoneWireTurbo.compute_all_neighbors p := by
  obtain ⟨x, y, z⟩ := p
  refine ⟨rfl, rfl, ?_, ?_, ?_⟩
  · intro q hq
    fin_cases hq <;> simp [manhattan, BlockPos.new]
  · simp [RedstoneWireTurbo.compute_all_neighbors, BlockPos.new, List.nodup_cons,
      BlockPos.mk.injEq]
    omega
  · intro hmem
    simp [RedstoneWireTurbo.compute_all_neighbors, BlockPos.new, BlockPos.mk.injEq] at hmem
    omega

/-- C7 witness: a concrete second-degree neighbor of the origin lies at
Manhattan distance 2. -/
theorem claim_C7_witness :
    (⟨-2, 0, 0⟩ : BlockPos) ∈ (RedstoneWireTurbo.compute_all_neighbors ⟨0, 0, 0⟩).drop 6
    ∧ manhattan ⟨0, 0, 0⟩ ⟨-2, 0, 0⟩ = 2 :=
  ⟨by decide, (claim_C7_compute_all_neighbors ⟨0, 0, 0⟩).2.2.1 ⟨-2, 0, 0⟩ (by decide)⟩

/-- The claim's geometric description of a direct wire-to-wire connection
path from the center: offset by exactly one in exactly one of the `x` or
`z` axes, combined with a `y` offset of `0`, `1` or `-1`.  Stated from the
spec's words, to be compared with the source's `UPDATE_REDSTONE` mask. -/
def isDirectWireConn (p q : BlockPos) : Prop :=
  (((q.x - p.x = 1 ∨ q.x - p.x = -1) ∧ q.z - p.z = 0)
    ∨ ((q.z - p.z = 1 ∨ q.z - p.z = -1) ∧ q.x - p.x = 0))
  ∧ (q.y - p.y = 0 ∨ q.y - p.y = 1 ∨ q.y - p.y = -1)

/-- C8: pairing the `UPDATE_REDSTONE` mask with `compute_all_neighbors`
slot by slot (the `i`-th mask entry with the `i`-th returned position),
the mask is `true` exactly when the slot's position is a direct geometric
wire-to-wire connection path from the center (the four same-level
horizontal neighbors and those neighbors one step up or down); every
other slot, including the positions directly above and below the center,
is `false`. -/
theorem claim_C8_update_redstone_mask (p : BlockPos) :
    ∀ pr ∈ RedstoneWireTurbo.UPDATE_REDSTONE.zip
        (RedstoneWireTurbo.compute_all_neighbors p),
      pr.1 = true ↔ isDirectWireConn p pr.2 := by
  obtain ⟨x, y, z⟩ := p
  intro pr hpr
  simp only [RedstoneWireTurbo.UPDATE_REDSTONE, RedstoneWireTurbo.compute_all_neighbors,
    BlockPos.new, List.zip_cons_cons, List.zip_nil_right] at hpr
  fin_cases hpr <;> simp [isDirectWireConn]

/-- C8 witness: slot 0 (the west neighbor, paired with mask value `true`)
is a direct wire-connection offset from the origin. -/
theorem claim_C8_witness :
    (true, (⟨-1, 0, 0⟩ : BlockPos)) ∈ RedstoneWireTurbo.UPDATE_REDSTONE.zip
        (RedstoneWireTurbo.compute_all_neighbors ⟨0, 0, 0⟩)
    ∧ isDirectWireConn ⟨0, 0, 0⟩ ⟨-1, 0, 0⟩ :=
  ⟨by decide,
   (claim_C8_update_redstone_mask ⟨0, 0, 0⟩ (true, ⟨-1, 0, 0⟩) (by decide)).mp rfl⟩
